import Mathlib

/-
Verification development for the chunked-upload engine of the repository
`large-file-upload-front`.

The repository ships two upload hooks:
* `src/src/components/local-file-upload/use-file-upload.ts` (`useUpload`), the
  local-storage upload hook, embedded below in namespace `LocalUpload`;
* `use-s3-upload.ts` (`src/unnamed/part_001`, with an identical copy embedded in
  `src/unnamed/part_000`), the S3 upload hook, embedded below in namespace
  `S3Upload`.

The file shallowly embeds the parts of both hooks that the verified properties
concern: chunk planning, resume reconciliation, the network speed tracker, the
concurrency-capped scheduling loop, per-chunk transport and retry semantics,
pause/resume, transporter timeouts, and the `startUpload` control flow.
JavaScript numbers are modelled as `Nat` wherever the source only ever holds
non-negative integers (byte offsets, counters, percentages, millisecond
constants) and as `ℚ` wherever genuine division occurs (speeds, timestamps in
the speed tracker), so that all arithmetic is exact.
-/

namespace FileUpload

/-- JavaScript `Math.round((loaded / total) * 100)` for natural `loaded`,
`0 < total`: `Math.round x = ⌊x + 1/2⌋` for non-negative `x`, hence
`⌊(100·loaded/total) + 1/2⌋ = (200·loaded + total) / (2·total)` in `Nat`
division.  Used by the upload-progress handlers of both hooks
(`use-file-upload.ts:532`, `part_001:530`) and by `updateTotalProgress`. -/
def jsRoundPct (loaded total : Nat) : Nat :=
  (200 * loaded + total) / (2 * total)

/-- JavaScript `Math.ceil (a / b)` on natural numbers, for `0 < b`. -/
def ceilDiv (a b : Nat) : Nat := (a + b - 1) / b

/-- Bounds characterising `ceilDiv` as the exact ceiling: for positive inputs,
`fs ≤ ceilDiv fs cs * cs`, `(ceilDiv fs cs - 1) * cs < fs`, and
`ceilDiv fs cs` is positive. -/
theorem ceilDiv_bounds (fs cs : Nat) (hfs : 0 < fs) (hcs : 0 < cs) :
    fs ≤ ceilDiv fs cs * cs ∧ (ceilDiv fs cs - 1) * cs < fs ∧ 0 < ceilDiv fs cs := by
  have hdm := Nat.div_add_mod (fs + cs - 1) cs
  have hml : (fs + cs - 1) % cs < cs := Nat.mod_lt _ hcs
  unfold ceilDiv
  set q := (fs + cs - 1) / cs with hqdef
  have hmain : fs ≤ cs * q ∧ cs * q - cs < fs ∧ 0 < q := by
    rcases Nat.eq_zero_or_pos q with h0 | hpos
    · exfalso
      rw [h0, Nat.mul_zero, Nat.zero_add] at hdm
      omega
    · refine ⟨?_, ?_, hpos⟩ <;>
      · generalize hM : cs * q = M at hdm ⊢
        omega
  obtain ⟨h1, h2, h3⟩ := hmain
  refine ⟨?_, ?_, h3⟩
  · rw [Nat.mul_comm]
    exact h1
  · have h4 : (q - 1) * cs = cs * q - cs := by
      cases q with
      | zero => simp
      | succ n =>
        rw [Nat.succ_sub_one, Nat.mul_comm cs (n + 1), Nat.succ_mul, Nat.add_sub_cancel]
    rw [h4]
    exact h2

end FileUpload

namespace LocalUpload

/-- Chunk record of `use-file-upload.ts` (interface `ChunkInfo`, lines 7-19).
The `blob` field (the byte range itself) and the optional timing fields are not
modelled; `start`/`end` describe the byte range exactly. -/
structure ChunkInfo where
  index : Nat
  start : Nat
  «end» : Nat
  hash : String
  uploaded : Bool
  progress : Nat
  retryCount : Nat
deriving DecidableEq, Repr

/-- Chunk identifier convention of `use-file-upload.ts`
(line 449 and line 489): `` `${fileHashValue}_chunk_${i}` ``. -/
def chunkHashOf (fh : String) (i : Nat) : String := s!"{fh}_chunk_{i}"

/-- `createChunks` of `use-file-upload.ts` (lines 476-505): for
`totalChunks = Math.ceil(file.size / chunkSize)` iterations, chunk `i` spans
`[i*chunkSize, min(i*chunkSize + chunkSize, file.size))`, is named
`${fileHash}_chunk_${i}`, and starts not uploaded with progress 0.
The byte computation is identical in the S3 hook's `createChunks`
(`part_001` lines 412-442). -/
def createChunks (fileSize chunkSize : Nat) (fileHashValue : String) : List ChunkInfo :=
  (List.range (FileUpload.ceilDiv fileSize chunkSize)).map (fun i =>
    { index := i
      start := i * chunkSize
      «end» := min (i * chunkSize + chunkSize) fileSize
      hash := chunkHashOf fileHashValue i
      uploaded := false
      progress := 0
      retryCount := 0 })

/-- `createChunksAndMarkUploaded` of `use-file-upload.ts` (lines 433-471):
identical chunk plan, but chunk `i` is marked
`uploaded := uploadedChunkHashes.includes(chunkHash)` with
`progress := isUploaded ? 100 : 0`. -/
def createChunksAndMarkUploaded (fileSize chunkSize : Nat) (fileHashValue : String)
    (uploadedChunkHashes : List String) : List ChunkInfo :=
  (List.range (FileUpload.ceilDiv fileSize chunkSize)).map (fun i =>
    let chunkHash := chunkHashOf fileHashValue i
    let isUploaded := uploadedChunkHashes.contains chunkHash
    { index := i
      start := i * chunkSize
      «end» := min (i * chunkSize + chunkSize) fileSize
      hash := chunkHash
      uploaded := isUploaded
      progress := if isUploaded then 100 else 0
      retryCount := 0 })

/-- Byte span of a chunk, as a pair `(start, end)`. -/
def chunkSpan (c : ChunkInfo) : Nat × Nat := (c.start, c.«end»)

/-- Length in bytes of a chunk. -/
def chunkLen (c : ChunkInfo) : Nat := c.«end» - c.start

end LocalUpload

namespace LocalUpload

theorem length_createChunks (fs cs : Nat) (fh : String) :
    (createChunks fs cs fh).length = FileUpload.ceilDiv fs cs := by
  simp [createChunks]

theorem get_createChunks (fs cs : Nat) (fh : String) (i : Nat)
    (h : i < (createChunks fs cs fh).length) :
    (createChunks fs cs fh).get ⟨i, h⟩ =
      { index := i
        start := i * cs
        «end» := min (i * cs + cs) fs
        hash := chunkHashOf fh i
        uploaded := false
        progress := 0
        retryCount := 0 } := by
  simp [createChunks]

theorem get_createChunksAndMarkUploaded (fs cs : Nat) (fh : String) (ids : List String)
    (i : Nat) (h : i < (createChunksAndMarkUploaded fs cs fh ids).length) :
    (createChunksAndMarkUploaded fs cs fh ids).get ⟨i, h⟩ =
      { index := i
        start := i * cs
        «end» := min (i * cs + cs) fs
        hash := chunkHashOf fh i
        uploaded := ids.contains (chunkHashOf fh i)
        progress := if ids.contains (chunkHashOf fh i) then 100 else 0
        retryCount := 0 } := by
  simp [createChunksAndMarkUploaded]

theorem min_sub_pos (t c f : Nat) (hc : 0 < c) (h : t < f) : 0 < min (t + c) f - t := by
  rcases Nat.le_total (t + c) f with h2 | h2
  · rw [min_eq_left h2]
    omega
  · rw [min_eq_right h2]
    omega

theorem sum_min_spans (cs fs : Nat) :
    ∀ n, ((List.range n).map (fun i => min (i * cs + cs) fs - i * cs)).sum = min (n * cs) fs := by
  intro n
  induction n with
  | zero => simp
  | succ n ih =>
    rw [List.range_succ, List.map_append, List.sum_append, ih]
    simp only [List.map_cons, List.map_nil, List.sum_cons, List.sum_nil, Nat.add_zero]
    rw [Nat.add_mul, Nat.one_mul]
    generalize n * cs = t
    rcases Nat.le_total fs t with h | h
    · rw [min_eq_right h, min_eq_right (by omega : fs ≤ t + cs)]
      omega
    · rw [min_eq_left h]
      rcases Nat.le_total (t + cs) fs with h2 | h2
      · rw [min_eq_left h2]
        omega
      · rw [min_eq_right h2]
        omega

/-- Specification of the chunk planner, following C4: the plan has exactly
`ceil(fileSize/chunkSize)` chunks; chunk `i` spans
`[i*chunkSize, min(i*chunkSize + chunkSize, fileSize))`; the chunks are
ordered, contiguous and non-overlapping (each chunk ends where the next
starts); the byte spans sum to `fileSize`; no chunk has zero length; every
chunk except possibly the final one has length exactly `chunkSize`; and the
byte partition does not depend on the hash argument, i.e. it is a
deterministic pure function of `(fileSize, chunkSize)`. -/
def chunkPlanSound (fs cs : Nat) : Prop :=
  ∀ fh : String,
    (createChunks fs cs fh).length = FileUpload.ceilDiv fs cs
    ∧ (∀ i (h : i < (createChunks fs cs fh).length),
        ((createChunks fs cs fh).get ⟨i, h⟩).index = i
        ∧ ((createChunks fs cs fh).get ⟨i, h⟩).start = i * cs
        ∧ ((createChunks fs cs fh).get ⟨i, h⟩).«end» = min (i * cs + cs) fs)
    ∧ (∀ i (h : i + 1 < (createChunks fs cs fh).length),
        ((createChunks fs cs fh).get ⟨i, Nat.lt_of_succ_lt h⟩).«end»
          = ((createChunks fs cs fh).get ⟨i + 1, h⟩).start)
    ∧ ((createChunks fs cs fh).map chunkLen).sum = fs
    ∧ (∀ i (h : i < (createChunks fs cs fh).length),
        0 < chunkLen ((createChunks fs cs fh).get ⟨i, h⟩))
    ∧ (∀ i (h : i + 1 < (createChunks fs cs fh).length),
        chunkLen ((createChunks fs cs fh).get ⟨i, Nat.lt_of_succ_lt h⟩) = cs)
    ∧ (∀ fh₂ : String,
        (createChunks fs cs fh₂).map chunkSpan = (createChunks fs cs fh).map chunkSpan)

/-- C4: for every `fileSize > 0` and `chunkSize > 0`, the planned chunk list of
`createChunks` (`use-file-upload.ts:476-505`, byte-identical in
`part_001:412-442`) has exactly `ceil(fileSize/chunkSize)` chunks; chunk `i`
spans `[i*chunkSize, min(i*chunkSize + chunkSize, fileSize))`; the chunks are
ordered, contiguous and non-overlapping; the byte spans sum to `fileSize`; no
chunk has zero length; only the final chunk may be smaller than `chunkSize`;
and the partition is a deterministic pure function of
`(fileSize, chunkSize)`. -/
theorem c4_chunk_plan (fs cs : Nat) (hfs : 0 < fs) (hcs : 0 < cs) : chunkPlanSound fs cs := by
  obtain ⟨hb1, hb2, hb3⟩ := FileUpload.ceilDiv_bounds fs cs hfs hcs
  intro fh
  refine ⟨length_createChunks fs cs fh, ?_, ?_, ?_, ?_, ?_, ?_⟩
  · intro i h
    rw [get_createChunks]
    exact ⟨rfl, rfl, rfl⟩
  · intro i h
    rw [get_createChunks, get_createChunks]
    show min (i * cs + cs) fs = (i + 1) * cs
    have hi : i + 1 ≤ FileUpload.ceilDiv fs cs - 1 := by
      have h2 := h
      rw [length_createChunks] at h2
      omega
    have hle : (i + 1) * cs ≤ (FileUpload.ceilDiv fs cs - 1) * cs :=
      Nat.mul_le_mul_right cs hi
    have hfull : (i + 1) * cs ≤ fs := le_of_lt (lt_of_le_of_lt hle hb2)
    rw [Nat.add_mul, Nat.one_mul] at hfull ⊢
    exact min_eq_left hfull
  · have hmap : (createChunks fs cs fh).map chunkLen
        = (List.range (FileUpload.ceilDiv fs cs)).map (fun i => min (i * cs + cs) fs - i * cs) := by
      simp [createChunks, chunkLen, List.map_map]
    rw [hmap, sum_min_spans]
    exact min_eq_right hb1
  · intro i h
    rw [get_createChunks]
    simp only [chunkLen]
    have hi : i ≤ FileUpload.ceilDiv fs cs - 1 := by
      have h2 := h
      rw [length_createChunks] at h2
      omega
    have hle : i * cs ≤ (FileUpload.ceilDiv fs cs - 1) * cs := Nat.mul_le_mul_right cs hi
    exact min_sub_pos (i * cs) cs fs hcs (lt_of_le_of_lt hle hb2)
  · intro i h
    rw [get_createChunks]
    simp only [chunkLen]
    have hi : i + 1 ≤ FileUpload.ceilDiv fs cs - 1 := by
      have h2 := h
      rw [length_createChunks] at h2
      omega
    have hle : (i + 1) * cs ≤ (FileUpload.ceilDiv fs cs - 1) * cs :=
      Nat.mul_le_mul_right cs hi
    have hfull : (i + 1) * cs ≤ fs := le_of_lt (lt_of_le_of_lt hle hb2)
    rw [Nat.add_mul, Nat.one_mul] at hfull
    rw [min_eq_left hfull, Nat.add_sub_cancel_left]
  · intro fh₂
    simp [createChunks, chunkSpan, List.map_map]

/-- Witness for C4 at `fileSize = 11`, `chunkSize = 4` (three chunks
`[0,4) [4,8) [8,11)`). -/
theorem c4_chunk_plan_witness : 0 < 11 ∧ 0 < 4 ∧ chunkPlanSound 11 4 :=
  ⟨by decide, by decide, c4_chunk_plan 11 4 (by decide) (by decide)⟩

end LocalUpload

namespace LocalUpload

/-- Specification of resume reconciliation, following C1: the marked plan has
the same length and the same byte spans as the plain plan, and chunk `i` is
marked uploaded (with progress 100) exactly when its identifier
`${fileHash}_chunk_${i}` appears in the satisfied-chunk identifier list;
every other chunk is left pending (not uploaded, progress 0).  In particular
the marking depends on membership of each identifier, never on the list's
length alone. -/
def reconcileMarksById (fs cs : Nat) (fh : String) (ids : List String) : Prop :=
  (createChunksAndMarkUploaded fs cs fh ids).length = (createChunks fs cs fh).length
  ∧ (createChunksAndMarkUploaded fs cs fh ids).map chunkSpan
      = (createChunks fs cs fh).map chunkSpan
  ∧ ∀ i (h : i < (createChunksAndMarkUploaded fs cs fh ids).length),
      (((createChunksAndMarkUploaded fs cs fh ids).get ⟨i, h⟩).uploaded = true
          ↔ ids.contains (chunkHashOf fh i) = true)
      ∧ ((createChunksAndMarkUploaded fs cs fh ids).get ⟨i, h⟩).progress
          = (if ids.contains (chunkHashOf fh i) then 100 else 0)
      ∧ (((createChunksAndMarkUploaded fs cs fh ids).get ⟨i, h⟩).uploaded = false
          → ((createChunksAndMarkUploaded fs cs fh ids).get ⟨i, h⟩).progress = 0)

/-- C1: for every satisfied-chunk identifier list delivered by a check
response, `createChunksAndMarkUploaded` (`use-file-upload.ts:433-471`) marks as
uploaded (progress 100) exactly the planned chunks whose identifiers appear in
the list and leaves all others pending; the marking is decided per identifier,
never inferred from the uploaded count alone.  (The S3 hook's check response
type `S3CheckUploadResponse` of `part_001` carries no identifier list at all —
only a `session.uploadedParts` count — so the claim's premise of an explicit
identifier list is realised only by this hook.) -/
theorem c1_reconciliation_marks_by_identifier (fs cs : Nat) (fh : String)
    (ids : List String) : reconcileMarksById fs cs fh ids := by
  refine ⟨?_, ?_, ?_⟩
  · simp [createChunksAndMarkUploaded, createChunks]
  · simp [createChunksAndMarkUploaded, createChunks, chunkSpan, List.map_map]
  · intro i h
    rw [get_createChunksAndMarkUploaded]
    refine ⟨Iff.rfl, rfl, ?_⟩
    intro hup
    cases hc : ids.contains (chunkHashOf fh i) with
    | false => simp [hc]
    | true =>
      rw [hc] at hup
      exact absurd hup (by simp)

/-- Identifier list for the C1 witness: names chunks 0, 2 and 4 of a 5-chunk
plan, matching the claim's example `{0,2,4}` out of 5. -/
def exampleMarkIds : List String :=
  [chunkHashOf ("x") 0, chunkHashOf ("x") 2, chunkHashOf ("x") 4]

/-- Witness for C1: `fileSize = 10`, `chunkSize = 2` gives 5 planned chunks,
and the identifier list naming chunks {0,2,4} marks exactly those uploaded. -/
theorem c1_reconciliation_witness : reconcileMarksById 10 2 ("x") exampleMarkIds :=
  c1_reconciliation_marks_by_identifier 10 2 ("x") exampleMarkIds

end LocalUpload

namespace FileUpload

/-- Trace of the in-flight count of the concurrent upload pass
`uploadChunksConcurrently` (`use-file-upload.ts:631-678`; the S3 version
`part_001:603-690` has the same pool discipline, with an extra pause-handling
`catch` that only removes settled entries, never adds).  One loop iteration
per pending chunk: `uploadSingleChunk(chunk)` is invoked (its transporter
starts at once) and its promise pushed onto `executing`, so the in-flight
count becomes `inflight + 1`; when `executing.length >= concurrent` the loop
awaits `Promise.race(executing)`, which returns only after at least one (and
at most all) of the outstanding operations has settled and spliced itself out
of `executing`.  The oracle gives, per wait point, how many operations beyond
the guaranteed first had settled when the race returned; `pending` is the
number of loop iterations left.  Every in-flight count the pass ever exhibits
appears in the returned trace (the final `Promise.all` drain only decreases
the count). -/
def schedulerTrace (concurrent : Nat) (oracle : Nat → Nat) :
    Nat → Nat → Nat → List Nat
  | 0, inflight, _ => [inflight]
  | pending + 1, inflight, k =>
    let f := inflight + 1
    if concurrent ≤ f then
      let settled := min (oracle k + 1) f
      f :: (f - settled) :: schedulerTrace concurrent oracle pending (f - settled) (k + 1)
    else
      f :: schedulerTrace concurrent oracle pending f k

/-- The in-flight counts of a trace all stay at or below the bound `b`. -/
def boundedBy (l : List Nat) (b : Nat) : Bool :=
  l.all (fun x => decide (x ≤ b))

/-- The constant-zero completion oracle: every `Promise.race` returns with
exactly one settled operation. -/
def zeroOracle : Nat → Nat := fun _ => 0

theorem boundedBy_iff (l : List Nat) (b : Nat) :
    boundedBy l b = true ↔ ∀ x ∈ l, x ≤ b := by
  simp [boundedBy, List.all_eq_true]

theorem schedulerTrace_bounded_aux (concurrent : Nat) (oracle : Nat → Nat)
    (hc : 1 ≤ concurrent) :
    ∀ pending inflight k, inflight < concurrent →
      ∀ x ∈ schedulerTrace concurrent oracle pending inflight k, x ≤ concurrent := by
  intro pending
  induction pending with
  | zero =>
    intro inflight k hlt x hx
    simp [schedulerTrace] at hx
    omega
  | succ n ih =>
    intro inflight k hlt x hx
    rw [schedulerTrace] at hx
    by_cases hcf : concurrent ≤ inflight + 1
    · rw [if_pos hcf] at hx
      simp only [List.mem_cons] at hx
      have hset : 1 ≤ min (oracle k + 1) (inflight + 1) := by
        have : 1 ≤ inflight + 1 := by omega
        omega
      rcases hx with h1 | h2 | h3
      · omega
      · omega
      · exact ih (inflight + 1 - min (oracle k + 1) (inflight + 1)) (k + 1) (by omega) x h3
    · rw [if_neg hcf] at hx
      simp only [List.mem_cons] at hx
      rcases hx with h1 | h2
      · omega
      · exact ih (inflight + 1) k (by omega) x h2
end FileUpload

namespace FileUpload

/-- C2 (amended): for every chunk list (any number of pending chunks), every
completion oracle, and every configured concurrency limit `concurrent ≥ 1`
(default 3), the in-flight count of the concurrent upload pass never exceeds
`concurrent`: a pass starts with no chunk in flight, and every in-flight count
it ever exhibits is bounded by `concurrent`. -/
theorem c2_concurrency_bounded (concurrent : Nat) (oracle : Nat → Nat) (pending : Nat)
    (hc : 1 ≤ concurrent) :
    boundedBy (schedulerTrace concurrent oracle pending 0 0) concurrent = true := by
  rw [boundedBy_iff]
  exact schedulerTrace_bounded_aux concurrent oracle hc pending 0 0 hc

/-- Counterexample to C2 as stated: with the configurable concurrency limit set
to `concurrent = 0` (the `UploadOptions.concurrent` field accepts any number)
and a single pending chunk, the pass still starts that chunk's transporter
before checking the pool, so one upload is in flight — exceeding the configured
limit of 0.  The trace is `[1, 0, 0]` and `1 ≤ 0` fails. -/
theorem c2_concurrency_zero_counterexample :
    boundedBy (schedulerTrace 0 zeroOracle 1 0 0) 0 = false := by
  decide

/-- Witness for C2 at the default configuration `concurrent = 3` with five
pending chunks. -/
theorem c2_concurrency_bounded_witness :
    boundedBy (schedulerTrace 3 zeroOracle 5 0 0) 3 = true :=
  c2_concurrency_bounded 3 zeroOracle 5 (by decide)

end FileUpload

namespace FileUpload

/-- Error values thrown by the hooks, keyed by the `new Error(...)` messages of
the source (`'请先选择文件'`, `'请先计算文件哈希值'`, `'上传会话不存在'`,
`'网络错误'`, `'HTTP ...'`, `'响应解析失败'`, server-reported failure,
`'上传已取消'`, `'请求已中止'` (the XHR abort-event rejection,
`part_001:570-573`), `'上传超时'`, `'上传失败，已重试 N 次'`,
`'上传已暂停，无法完成'`). -/
inductive UploadErr where
  | noFile
  | noHash
  | noSession
  | network
  | http
  | parse
  | server
  | cancel
  | aborted
  | timeout
  | retryExhausted
  | paused
deriving DecidableEq, Repr

/-- The pause handler of `part_001:635` distinguishes cancellation by
`error.message.includes('已取消')`; only the cancellation error's message
contains that substring. -/
def isCancelError : UploadErr → Bool
  | UploadErr.cancel => true
  | _ => false

end FileUpload

namespace S3Upload

/-- Chunk record of the S3 hook (`part_001`, interface `S3ChunkInfo`, lines
7-21).  The `blob` field and the timing fields `uploadStartTime`/
`uploadEndTime` are not modelled; the optional `abortController` is modelled by
`hasController` (a controller has been attached) and `signalAborted` (its
signal has fired); `chunkHash` is always assigned by chunk creation, so it is a
plain `String`. -/
structure S3Chunk where
  index : Nat
  partNumber : Nat
  start : Nat
  «end» : Nat
  uploaded : Bool
  progress : Nat
  retryCount : Nat
  etag : Option String
  chunkHash : String
  hasController : Bool
  signalAborted : Bool
deriving DecidableEq, Repr

/-- Upload session of the S3 hook (`part_001`, interface `S3UploadSession`,
lines 32-42; the optional `parts` array is not modelled). -/
structure S3Session where
  sessionId : String
  uploadId : String
  objectName : String
  fileName : String
  fileSize : Nat
  totalChunks : Nat
  uploadedParts : Option Nat
  progress : Option Nat
deriving DecidableEq, Repr

/-- `createChunks` of the S3 hook (`part_001:412-442`): same byte plan as the
local hook, S3 part numbers start at 1, and each chunk carries a content hash
of its bytes.  Chunk content hashing (`calculateChunkHash`) is modelled by the
oracle `hashOf`, mapping a chunk index to the digest of that chunk's bytes. -/
def createChunks (fileSize chunkSize : Nat) (hashOf : Nat → String) : List S3Chunk :=
  (List.range (FileUpload.ceilDiv fileSize chunkSize)).map (fun i =>
    { index := i
      partNumber := i + 1
      start := i * chunkSize
      «end» := min (i * chunkSize + chunkSize) fileSize
      uploaded := false
      progress := 0
      retryCount := 0
      etag := none
      chunkHash := hashOf i
      hasController := false
      signalAborted := false })

/-- `createChunksAndMarkUploaded` of the S3 hook (`part_001:377-409`): the S3
check response carries no chunk identifier list, so this function marks chunk
`i` uploaded by the count comparison `session.uploadedParts || 0 > i`. -/
def createChunksAndMarkUploaded (fileSize chunkSize : Nat) (hashOf : Nat → String)
    (session : S3Session) : List S3Chunk :=
  (List.range (FileUpload.ceilDiv fileSize chunkSize)).map (fun i =>
    let uploadedPartsCount := session.uploadedParts.getD 0
    let isUploaded := decide (i < uploadedPartsCount)
    { index := i
      partNumber := i + 1
      start := i * chunkSize
      «end» := min (i * chunkSize + chunkSize) fileSize
      uploaded := isUploaded
      progress := if isUploaded then 100 else 0
      retryCount := 0
      etag := none
      chunkHash := hashOf i
      hasController := false
      signalAborted := false })

/-- Outcome of one transport attempt for a chunk, as seen by the promise that
`uploadChunk` returns: the XHR either loads with a success body (carrying an
optional ETag) or the promise rejects with one of the error values of
`part_001:511-581` — the request-abort error `'请求已中止'` (the abort
listener of lines 570-573 rejects first whenever `xhr.abort()` is called,
whether by the timeout timer or by the abort signal's listener, so the
`'上传超时'` and `'上传已取消'` rejections behind it are dead code), a network
error, an HTTP status error, a JSON parse failure, or a `success:false`
body. -/
inductive TransportOutcome where
  | ok (etag : Option String)
  | fail (e : FileUpload.UploadErr)
deriving DecidableEq, Repr

/-- `uploadChunk` of the S3 hook (`part_001:491-588`).  The function
synchronously attaches a fresh `AbortController`, sets `progress := 1`, and
returns a promise tied to the XHR.  On success the handler marks the chunk
`uploaded := true, progress := 100` and stores the ETag, and the promise
resolves `true`.  On any asynchronous failure the promise REJECTS: the
source's `catch` block (lines 582-587, `retryCount++; progress = 0;
return false`) cannot run for such failures, because the `try` block exits by
`return new Promise(...)` — in an async function a rejection of a returned
promise is not caught by the surrounding `try`/`catch` — and nothing inside
the `try` before the `return` can throw.  The rejection therefore propagates
to the caller as an exception, the chunk's `retryCount` is not incremented and
its progress is not reset (it keeps whatever the last progress event wrote;
here the preamble value 1, no progress event being modelled inside a single
attempt). -/
def uploadChunk (c : S3Chunk) (o : TransportOutcome) : S3Chunk × Except FileUpload.UploadErr Bool :=
  let c1 := { c with hasController := true, signalAborted := false, progress := 1 }
  match o with
  | TransportOutcome.ok etag =>
    ({ c1 with uploaded := true, progress := 100, etag := etag }, Except.ok true)
  | TransportOutcome.fail e => (c1, Except.error e)

/-- The retry `while` loop of `uploadSingleChunk` (`part_001:617-628`), for a
task that is not paused: while `!success && attempts < retryTimes`, perform
`success = await uploadChunk(chunk)` with the outcome of attempt `attempts`
given by the oracle (the backoff sleep between attempts does not change any
modelled state).  A rejection of `uploadChunk`'s promise makes the `await`
throw, leaving the loop (and the function) at once. -/
def uploadRetryLoop (oracle : Nat → TransportOutcome) :
    S3Chunk → Nat → Nat → S3Chunk × Except FileUpload.UploadErr Bool
  | c, _, 0 => (c, Except.ok false)
  | c, attempts, remaining + 1 =>
    match uploadChunk c (oracle attempts) with
    | (c1, Except.error e) => (c1, Except.error e)
    | (c1, Except.ok true) => (c1, Except.ok true)
    | (c1, Except.ok false) => uploadRetryLoop oracle c1 (attempts + 1) remaining

/-- `uploadSingleChunk` of the S3 hook (`part_001:610-644`), for a task that is
not paused: run the retry loop; if it ends without success throw the
retry-exhausted error (line 631); the `catch` (lines 633-639) re-throws every
error because the task is not paused.  (The `executingChunks` bookkeeping is
modelled separately by the task transition system below.) -/
def uploadSingleChunk (retryTimes : Nat) (oracle : Nat → TransportOutcome)
    (c : S3Chunk) : S3Chunk × Except FileUpload.UploadErr Unit :=
  match uploadRetryLoop oracle c 0 retryTimes with
  | (c1, Except.error e) => (c1, Except.error e)
  | (c1, Except.ok true) => (c1, Except.ok ())
  | (c1, Except.ok false) => (c1, Except.error FileUpload.UploadErr.retryExhausted)

end S3Upload

namespace S3Upload

/-- Transport schedule of the C5 scenario: the first two attempts fail with a
network error, the third succeeds. -/
def failFailOk : Nat → TransportOutcome := fun n =>
  if n < 2 then TransportOutcome.fail FileUpload.UploadErr.network
  else TransportOutcome.ok none

/-- The single chunk of a 5 MiB file split at 5 MiB chunk size, exactly the
head of `createChunks 5242880 5242880` with an empty content hash. -/
def c5Chunk : S3Chunk :=
  { index := 0
    partNumber := 1
    start := 0
    «end» := 5242880
    uploaded := false
    progress := 0
    retryCount := 0
    etag := none
    chunkHash := ("")
    hasController := false
    signalAborted := false }

/-- C5, failing input: the claim says that with `retryTimes = 3` a chunk whose
transport fails twice and succeeds on the third attempt ends `uploaded = true`,
and a chunk failing all three attempts ends with `retryCount = 3`.  The code
does neither: because `uploadChunk` returns its promise from inside `try`, a
transport failure rejects instead of returning `false`, the rejection escapes
the retry `while` loop on the FIRST failed attempt, no retry is performed, the
chunk stays not uploaded and its `retryCount` stays 0, and the whole pass fails
with the network error.  Running `uploadSingleChunk` with `retryTimes = 3` on
the fail-fail-succeed schedule evaluates to exactly that. -/
theorem c5_retry_never_happens :
    uploadSingleChunk 3 failFailOk c5Chunk
        = ({ c5Chunk with hasController := true, progress := 1 },
           Except.error FileUpload.UploadErr.network)
      ∧ ({ c5Chunk with hasController := true, progress := 1 }).retryCount = 0
      ∧ ({ c5Chunk with hasController := true, progress := 1 }).uploaded = false := by
  refine ⟨rfl, rfl, rfl⟩

end S3Upload

namespace FileUpload

/-- Timeout constant of the S3 chunk transporter: `part_001:517` arms its
timer with `60_000 * 60` milliseconds. -/
def s3UploadTimeoutMs : Nat := 60000 * 60

/-- Timer constant of the local-upload chunk transporter:
`use-file-upload.ts:524` arms `setTimeout(() => controller.abort(), 30_000)`. -/
def localUploadTimeoutMs : Nat := 30000

/-- The claim's reading of a transporter's default timeout: between 30 and 60
seconds. -/
def timeoutWithinSpec (ms : Nat) : Prop := 30000 ≤ ms ∧ ms ≤ 60000

/-- State of one chunk request: whether the XHR is still running. -/
structure XhrRun where
  inFlight : Bool
deriving DecidableEq, Repr

/-- The rejections attempted when the S3 timeout timer fires with the chunk's
abort signal not yet fired, in execution order: the handler's `xhr.abort()`
(`part_001:514`) synchronously runs the XHR request error steps and fires the
`abort` event, whose listener (`part_001:570-573`) rejects with the
request-abort error `'请求已中止'`; only then does the handler's own
`reject(new Error('上传超时'))` (`part_001:515`) run, finding the promise
already settled.  A promise settles once, so only the head of this list is
observable: the timeout error `'上传超时'` is dead code. -/
def s3TimeoutRejections : List UploadErr := [UploadErr.aborted, UploadErr.timeout]

/-- Firing of the S3 transporter's timeout timer (`part_001:512-517`): if the
chunk's abort signal has not already fired, the handler aborts the request,
and the attempt settles with the first rejection of `s3TimeoutRejections`
(the abort listener's `'请求已中止'`); otherwise it does nothing. -/
def s3TimeoutFire (signalAborted : Bool) (x : XhrRun) : XhrRun × Option UploadErr :=
  if signalAborted then (x, none)
  else ({ inFlight := false }, s3TimeoutRejections.head?)

/-- Firing of the local transporter's 30-second timer
(`use-file-upload.ts:523-524`): the handler aborts an `AbortController` whose
signal is never attached to the `XMLHttpRequest` (neither `xhr` nor any fetch
call references `controller.signal`, and `xhr.timeout` is never set), so the
request keeps running and no error is produced. -/
def localTimeoutFire (x : XhrRun) : XhrRun × Option UploadErr := (x, none)

/-- Counterexample to C8 as stated: the S3 chunk transporter's timeout constant
is `60_000 * 60 = 3_600_000` ms (one hour), not between 30 and 60 seconds. -/
theorem c8_timeout_counterexample : ¬ timeoutWithinSpec s3UploadTimeoutMs := by
  simp [timeoutWithinSpec, s3UploadTimeoutMs]

/-- C8 (amended): the S3 chunk transporter enforces its own timeout of
3,600,000 ms (one hour), independent of the caller's cancellation: when the
timer fires and the chunk's abort signal has not fired, the request is aborted
and the attempt settles with the request-abort error `'请求已中止'` — the
abort listener's rejection wins, the timer's own `'上传超时'` rejection being
dead code behind it — and that error is distinct from the cancellation error
(the pause handler's `includes('已取消')` test does not match it, so an
expired attempt is treated as an ordinary failure, not a cancellation); if the
abort signal fired first, the timer does nothing.  The local-upload
transporter's 30,000 ms timer aborts a controller that is never attached to
the request, so it enforces no timeout at all. -/
theorem c8_timeout_semantics :
    s3UploadTimeoutMs = 3600000
    ∧ s3TimeoutFire false { inFlight := true }
        = ({ inFlight := false }, some UploadErr.aborted)
    ∧ s3TimeoutRejections = [UploadErr.aborted, UploadErr.timeout]
    ∧ s3TimeoutFire true { inFlight := true } = ({ inFlight := true }, none)
    ∧ UploadErr.aborted ≠ UploadErr.cancel
    ∧ isCancelError UploadErr.aborted = false
    ∧ localUploadTimeoutMs = 30000
    ∧ localTimeoutFire { inFlight := true } = ({ inFlight := true }, none) := by
  refine ⟨rfl, rfl, rfl, rfl, ?_, rfl, rfl, rfl⟩
  intro h
  cases h

end FileUpload

namespace FileUpload

/-- Reactive speed summary of both hooks (interface `S3SpeedInfo` /
`SpeedInfo`): current and average and peak speed in bytes per second, plus the
timestamp of the last update.  Modelled over `ℚ` since speeds are quotients. -/
structure SpeedInfo where
  current : ℚ
  average : ℚ
  peak : ℚ
  lastUpdate : ℚ
deriving DecidableEq, Repr

/-- Network statistics of both hooks (interface `S3NetworkStats` /
`NetworkStats`; the local hook's extra `chunkSpeeds` list is not modelled).
Timestamps are in milliseconds, byte counts in bytes, both over `ℚ`. -/
structure NetworkStats where
  uploadedBytes : ℚ
  totalBytes : ℚ
  startTime : ℚ
  lastMeasureTime : ℚ
  lastMeasureBytes : ℚ
  speedHistory : List ℚ
deriving DecidableEq, Repr

/-- `updateNetworkStats` (`part_001:197-230`, identical logic in
`use-file-upload.ts:199-241`): the first call (recognised by the sentinel
`startTime === 0`) only records the baseline; afterwards, whenever at least
1000 ms have passed since the last measurement, a new instantaneous speed
`bytesDiff / (timeDiff / 1000)` is computed, pushed onto the history (which is
shifted down to its 10 most recent entries), `current` and `lastUpdate` are
set, `average` becomes `uploadedBytes / totalTime` for
`totalTime = (now - startTime) / 1000` (0 if `totalTime` is not positive),
`peak` is raised if exceeded, and the measurement baseline is advanced. -/
def updateNetworkStats (uploadedBytes now : ℚ) (ns : NetworkStats) (si : SpeedInfo) :
    NetworkStats × SpeedInfo :=
  if ns.startTime = 0 then
    ({ ns with startTime := now, lastMeasureTime := now, lastMeasureBytes := uploadedBytes }, si)
  else
    if 1000 ≤ now - ns.lastMeasureTime then
      let currentSpeed := (uploadedBytes - ns.lastMeasureBytes) / ((now - ns.lastMeasureTime) / 1000)
      let hist0 := ns.speedHistory ++ [currentSpeed]
      let hist := if 10 < hist0.length then hist0.tail else hist0
      let totalTime := (now - ns.startTime) / 1000
      ({ ns with speedHistory := hist, lastMeasureTime := now, lastMeasureBytes := uploadedBytes },
       { current := currentSpeed
         average := if 0 < totalTime then uploadedBytes / totalTime else 0
         peak := if si.peak < currentSpeed then currentSpeed else si.peak
         lastUpdate := now })
    else (ns, si)

/-- `resetNetworkStats` (`part_001:232-243`): the zero state of the tracker. -/
def resetStats : NetworkStats × SpeedInfo :=
  ({ uploadedBytes := 0, totalBytes := 0, startTime := 0, lastMeasureTime := 0,
     lastMeasureBytes := 0, speedHistory := [] },
   { current := 0, average := 0, peak := 0, lastUpdate := 0 })

/-- Run the tracker over a trace of `(cumulative bytes, timestamp)` updates. -/
def runStats : List (ℚ × ℚ) → NetworkStats × SpeedInfo → NetworkStats × SpeedInfo
  | [], p => p
  | (b, t) :: tr, p => runStats tr (updateNetworkStats b t p.1 p.2)

/-- Modelled from the spec side of C9 (clearly spec-derived, for the refinement
statement): the sequence of instantaneous-speed samples produced by a trace of
`(cumulative bytes, timestamp)` measurements.  The first measurement only sets
the baseline; afterwards a sample is taken exactly when at least one second has
elapsed since the previous measurement, and equals
`(bytesNow - bytesAtLastSample) / (timeNow - timeAtLastSample)` (the time
difference converted from milliseconds to seconds); taking a sample advances
the baseline. -/
def specSamples : List (ℚ × ℚ) → Option (ℚ × ℚ) → List ℚ
  | [], _ => []
  | (b, t) :: tr, none => specSamples tr (some (b, t))
  | (b, t) :: tr, some (lb, lt) =>
    if 1000 ≤ t - lt then
      ((b - lb) / ((t - lt) / 1000)) :: specSamples tr (some (b, t))
    else
      specSamples tr (some (lb, lt))

/-- The `n` most recent entries of a list. -/
def lastN (n : Nat) (l : List ℚ) : List ℚ := l.drop (l.length - n)

/-- Fold of binary `max` over a list, seeded with 0 (the tracker's initial
peak). -/
def maxQ (l : List ℚ) : ℚ := l.foldl max 0

/-- Most recent entry of a list, 0 if there is none (the tracker's initial
current speed). -/
def lastQ (l : List ℚ) : ℚ := l.getLastD 0

/-- Pointwise order on `(bytes, timestamp)` pairs: cumulative byte counts and
clock readings never decrease along a trace. -/
def measureLE : ℚ × ℚ → ℚ × ℚ → Prop := fun a b => a.1 ≤ b.1 ∧ a.2 ≤ b.2

instance : DecidableRel measureLE := fun a b =>
  inferInstanceAs (Decidable (a.1 ≤ b.1 ∧ a.2 ≤ b.2))

end FileUpload

namespace FileUpload

theorem tail_append_singleton (l : List ℚ) (x : ℚ) (h : l ≠ []) :
    (l ++ [x]).tail = l.tail ++ [x] := by
  cases l with
  | nil => exact absurd rfl h
  | cons a l => rfl

theorem lastN_step (ss : List ℚ) (x : ℚ) :
    (if 10 < (lastN 10 ss ++ [x]).length then (lastN 10 ss ++ [x]).tail
     else lastN 10 ss ++ [x])
      = lastN 10 (ss ++ [x]) := by
  have hlen : (lastN 10 ss).length = ss.length - (ss.length - 10) := by
    simp [lastN]
  by_cases h : ss.length < 10
  · have h0 : ss.length - 10 = 0 := by omega
    have h1 : ss.length + 1 - 10 = 0 := by omega
    rw [if_neg]
    · simp [lastN, h0, h1]
    · simp only [List.length_append, List.length_singleton, hlen, h0, not_lt]
      omega
  · have h10 : 10 ≤ ss.length := by omega
    have hlen10 : (lastN 10 ss).length = 10 := by omega
    have hne : lastN 10 ss ≠ [] := by
      intro hh
      rw [hh] at hlen10
      simp at hlen10
    rw [if_pos]
    · rw [tail_append_singleton _ _ hne, lastN, List.tail_drop, lastN,
        List.length_append, List.length_singleton,
        List.drop_append_of_le_length (by omega)]
      have harith : ss.length - 10 + 1 = ss.length + 1 - 10 := by omega
      rw [harith]
    · rw [List.length_append, List.length_singleton, hlen10]
      omega

theorem lastQ_append (ss : List ℚ) (x : ℚ) : lastQ (ss ++ [x]) = x := by
  simp [lastQ]

theorem maxQ_append (ss : List ℚ) (x : ℚ) : maxQ (ss ++ [x]) = max (maxQ ss) x := by
  simp [maxQ, List.foldl_append]

theorem if_lt_max (a b : ℚ) : (if a < b then b else a) = max a b := by
  rcases le_or_lt b a with h | h
  · rw [if_neg (not_lt.mpr h), max_eq_left h]
  · rw [if_pos h, max_eq_right (le_of_lt h)]

theorem le_foldl_max (l : List ℚ) : ∀ a : ℚ, a ≤ l.foldl max a := by
  induction l with
  | nil =>
    intro a
    simp
  | cons x l ih =>
    intro a
    rw [List.foldl_cons]
    exact le_trans (le_max_left a x) (ih (max a x))

theorem mem_le_foldl_max (l : List ℚ) : ∀ (a x : ℚ), x ∈ l → x ≤ l.foldl max a := by
  induction l with
  | nil =>
    intro a x hx
    cases hx
  | cons y l ih =>
    intro a x hx
    rcases List.mem_cons.mp hx with h | h
    · subst h
      rw [List.foldl_cons]
      exact le_trans (le_max_right a x) (le_foldl_max l (max a x))
    · rw [List.foldl_cons]
      exact ih (max a y) x h

theorem foldl_max_eq_or_mem (l : List ℚ) : ∀ a : ℚ, l.foldl max a = a ∨ l.foldl max a ∈ l := by
  induction l with
  | nil =>
    intro a
    left
    rfl
  | cons x l ih =>
    intro a
    rcases ih (max a x) with h | h
    · rcases max_choice a x with hm | hm
      · left
        rw [List.foldl_cons, h, hm]
      · right
        rw [List.foldl_cons, h, hm]
        exact List.mem_cons_self x l
    · right
      rw [List.foldl_cons]
      exact List.mem_cons_of_mem x h

theorem chain_measureLE_trans (a b : ℚ × ℚ) (l : List (ℚ × ℚ))
    (hab : measureLE a b) (h : List.Chain measureLE b l) : List.Chain measureLE a l := by
  cases l with
  | nil => exact List.Chain.nil
  | cons c l =>
    rcases List.chain_cons.mp h with ⟨hbc, hcl⟩
    exact List.chain_cons.mpr ⟨⟨le_trans hab.1 hbc.1, le_trans hab.2 hbc.2⟩, hcl⟩

theorem specSamples_nonneg : ∀ (tr : List (ℚ × ℚ)) (lb lt : ℚ),
    List.Chain measureLE (lb, lt) tr →
    ∀ x ∈ specSamples tr (some (lb, lt)), 0 ≤ x := by
  intro tr
  induction tr with
  | nil =>
    intro lb lt hc x hx
    simp [specSamples] at hx
  | cons e tr ih =>
    intro lb lt hc x hx
    obtain ⟨b, t⟩ := e
    rcases List.chain_cons.mp hc with ⟨hbt, hrest⟩
    rw [specSamples] at hx
    by_cases h1 : 1000 ≤ t - lt
    · rw [if_pos h1] at hx
      rcases List.mem_cons.mp hx with h | h
      · subst h
        have hnum : (0 : ℚ) ≤ b - lb := by
          have := hbt.1
          linarith
        have hden : (0 : ℚ) ≤ (t - lt) / 1000 := by
          have h2 : (0 : ℚ) ≤ t - lt := by linarith
          exact div_nonneg h2 (by norm_num)
        exact div_nonneg hnum hden
      · exact ih b t hrest x h
    · rw [if_neg h1] at hx
      exact ih lb lt (chain_measureLE_trans _ _ _ hbt hrest) x hx

end FileUpload

namespace FileUpload

theorem runStats_tracks :
    ∀ (tr : List (ℚ × ℚ)) (ns : NetworkStats) (si : SpeedInfo) (acc : List ℚ),
      ns.startTime ≠ 0 →
      ns.startTime ≤ ns.lastMeasureTime →
      List.Chain measureLE (ns.lastMeasureBytes, ns.lastMeasureTime) tr →
      ns.speedHistory = lastN 10 acc →
      si.current = lastQ acc →
      si.peak = maxQ acc →
      si.average = (if acc = [] then 0
        else ns.lastMeasureBytes / ((ns.lastMeasureTime - ns.startTime) / 1000)) →
      (runStats tr (ns, si)).1.speedHistory
          = lastN 10 (acc ++ specSamples tr (some (ns.lastMeasureBytes, ns.lastMeasureTime)))
      ∧ (runStats tr (ns, si)).2.current
          = lastQ (acc ++ specSamples tr (some (ns.lastMeasureBytes, ns.lastMeasureTime)))
      ∧ (runStats tr (ns, si)).2.peak
          = maxQ (acc ++ specSamples tr (some (ns.lastMeasureBytes, ns.lastMeasureTime)))
      ∧ (runStats tr (ns, si)).1.startTime = ns.startTime
      ∧ (runStats tr (ns, si)).2.average
          = (if (acc ++ specSamples tr (some (ns.lastMeasureBytes, ns.lastMeasureTime))) = []
             then 0
             else (runStats tr (ns, si)).1.lastMeasureBytes
               / (((runStats tr (ns, si)).1.lastMeasureTime
                    - (runStats tr (ns, si)).1.startTime) / 1000)) := by
  intro tr
  induction tr with
  | nil =>
    intro ns si acc h1 h2 h3 h4 h5 h6 h7
    simp only [runStats, specSamples, List.append_nil]
    exact ⟨h4, h5, h6, trivial, h7⟩
  | cons e tr ih =>
    intro ns si acc h1 h2 h3 h4 h5 h6 h7
    obtain ⟨b, t⟩ := e
    rcases List.chain_cons.mp h3 with ⟨hbt, hrest⟩
    by_cases hgate : 1000 ≤ t - ns.lastMeasureTime
    · -- a sample is taken
      have htpos : (0 : ℚ) < (t - ns.startTime) / 1000 := by
        have hstep : (1000 : ℚ) ≤ t - ns.startTime := by
          have := hbt.2
          linarith
        have : (0 : ℚ) < t - ns.startTime := by linarith
        exact div_pos this (by norm_num)
      have hupd : updateNetworkStats b t ns si =
          ({ ns with
              speedHistory :=
                lastN 10 (acc ++ [(b - ns.lastMeasureBytes) / ((t - ns.lastMeasureTime) / 1000)])
              lastMeasureTime := t
              lastMeasureBytes := b },
           { current := (b - ns.lastMeasureBytes) / ((t - ns.lastMeasureTime) / 1000)
             average := b / ((t - ns.startTime) / 1000)
             peak := maxQ (acc ++ [(b - ns.lastMeasureBytes) / ((t - ns.lastMeasureTime) / 1000)])
             lastUpdate := t }) := by
        rw [updateNetworkStats, if_neg h1, if_pos hgate]
        simp only [h4, h6, lastN_step, if_lt_max, maxQ_append, if_pos htpos]
      have hss : specSamples ((b, t) :: tr) (some (ns.lastMeasureBytes, ns.lastMeasureTime))
          = ((b - ns.lastMeasureBytes) / ((t - ns.lastMeasureTime) / 1000))
              :: specSamples tr (some (b, t)) := by
        rw [specSamples, if_pos hgate]
      have happ : acc ++ ((b - ns.lastMeasureBytes) / ((t - ns.lastMeasureTime) / 1000))
              :: specSamples tr (some (b, t))
          = (acc ++ [(b - ns.lastMeasureBytes) / ((t - ns.lastMeasureTime) / 1000)])
              ++ specSamples tr (some (b, t)) := by
        rw [List.append_cons]
      have hstep := ih
        ({ ns with
            speedHistory :=
              lastN 10 (acc ++ [(b - ns.lastMeasureBytes) / ((t - ns.lastMeasureTime) / 1000)])
            lastMeasureTime := t
            lastMeasureBytes := b })
        ({ current := (b - ns.lastMeasureBytes) / ((t - ns.lastMeasureTime) / 1000)
           average := b / ((t - ns.startTime) / 1000)
           peak := maxQ (acc ++ [(b - ns.lastMeasureBytes) / ((t - ns.lastMeasureTime) / 1000)])
           lastUpdate := t })
        (acc ++ [(b - ns.lastMeasureBytes) / ((t - ns.lastMeasureTime) / 1000)])
        h1
        (by
          show ns.startTime ≤ t
          have := hbt.2
          linarith)
        hrest
        rfl
        (lastQ_append acc _).symm
        rfl
        (by
          rw [if_neg (by simp)])
      rw [runStats, hupd, hss, happ]
      exact hstep
    · -- below the sampling interval: state unchanged
      have hupd : updateNetworkStats b t ns si = (ns, si) := by
        rw [updateNetworkStats, if_neg h1, if_neg hgate]
      have hss : specSamples ((b, t) :: tr) (some (ns.lastMeasureBytes, ns.lastMeasureTime))
          = specSamples tr (some (ns.lastMeasureBytes, ns.lastMeasureTime)) := by
        rw [specSamples, if_neg hgate]
      rw [runStats, hupd, hss]
      exact ih ns si acc h1 h2 (chain_measureLE_trans _ _ _ hbt hrest) h4 h5 h6 h7

end FileUpload

namespace FileUpload

/-- Specification of the speed tracker, following C9, for a trace of
`(cumulative bytes, timestamp)` updates starting from the reset state:
the stored history equals the 10 most recent spec-side samples; `current` is
the most recent sample; `peak` equals the tracker's running maximum of the
samples — in particular every observed sample is at most `peak` and, once any
sample exists, `peak` is one of the observed samples; and `average` equals the
cumulative uploaded bytes divided by the elapsed seconds since the tracker's
start, both taken at the most recent measurement (0 while no sample exists). -/
def speedTrackerSpec (tr : List (ℚ × ℚ)) : Prop :=
  (runStats tr resetStats).1.speedHistory = lastN 10 (specSamples tr none)
  ∧ (runStats tr resetStats).2.current = lastQ (specSamples tr none)
  ∧ (runStats tr resetStats).2.peak = maxQ (specSamples tr none)
  ∧ (∀ x ∈ specSamples tr none, x ≤ (runStats tr resetStats).2.peak)
  ∧ (specSamples tr none ≠ [] → (runStats tr resetStats).2.peak ∈ specSamples tr none)
  ∧ ((runStats tr resetStats).2.average
      = (if specSamples tr none = [] then 0
         else (runStats tr resetStats).1.lastMeasureBytes
           / (((runStats tr resetStats).1.lastMeasureTime
                - (runStats tr resetStats).1.startTime) / 1000)))

/-- C9: over any measurement trace with non-decreasing cumulative byte counts
and non-decreasing positive timestamps (the tracker is fed cumulative uploaded
bytes and clock readings), `updateNetworkStats`
(`part_001:197-230` / `use-file-upload.ts:199-241`) keeps a bounded history of
at most the 10 most recent instantaneous-speed samples; a new sample is taken
exactly when at least 1000 ms have elapsed since the previous measurement and
equals `(bytesNow - bytesAtLastSample) / (timeNow - timeAtLastSample)`
(converted to seconds); `average` equals cumulative uploaded bytes divided by
elapsed seconds since the tracker started, as of the latest sample; and `peak`
is the maximum instantaneous sample observed so far. -/
theorem c9_speed_tracker (tr : List (ℚ × ℚ))
    (hmono : List.Chain measureLE (0, 0) tr)
    (hpos : ∀ e ∈ tr, 0 < e.2) :
    speedTrackerSpec tr := by
  unfold speedTrackerSpec
  cases tr with
  | nil =>
    refine ⟨rfl, rfl, rfl, ?_, ?_, ?_⟩
    · intro x hx
      simp [specSamples] at hx
    · intro h
      exact absurd rfl h
    · simp [runStats, specSamples, resetStats]
  | cons e tr =>
    obtain ⟨b, t⟩ := e
    rcases List.chain_cons.mp hmono with ⟨h0bt, hrest⟩
    have ht : 0 < t := hpos (b, t) (List.mem_cons_self _ _)
    have hinit : updateNetworkStats b t resetStats.1 resetStats.2 =
        ({ uploadedBytes := 0, totalBytes := 0, startTime := t, lastMeasureTime := t,
           lastMeasureBytes := b, speedHistory := [] }, resetStats.2) := by
      rw [updateNetworkStats, if_pos (show resetStats.1.startTime = (0 : ℚ) from rfl)]
      rfl
    have htrack := runStats_tracks tr
      { uploadedBytes := 0, totalBytes := 0, startTime := t, lastMeasureTime := t,
        lastMeasureBytes := b, speedHistory := [] }
      resetStats.2 []
      (ne_of_gt ht) (le_refl t) hrest rfl rfl rfl (by simp [resetStats])
    obtain ⟨k1, k2, k3, k4, k5⟩ := htrack
    have hrun : runStats ((b, t) :: tr) resetStats
        = runStats tr
            ({ uploadedBytes := 0, totalBytes := 0, startTime := t, lastMeasureTime := t,
               lastMeasureBytes := b, speedHistory := [] }, resetStats.2) := by
      rw [runStats, hinit]
    have hss : specSamples ((b, t) :: tr) none = specSamples tr (some (b, t)) := rfl
    rw [hrun, hss]
    simp only [List.nil_append] at k1 k2 k3 k5
    refine ⟨k1, k2, k3, ?_, ?_, k5⟩
    · intro x hx
      rw [k3]
      exact mem_le_foldl_max _ 0 x hx
    · intro hne
      rw [k3]
      have hnn := specSamples_nonneg tr b t hrest
      rcases foldl_max_eq_or_mem (specSamples tr (some (b, t))) 0 with hm | hm
      · cases hss2 : specSamples tr (some (b, t)) with
        | nil => exact absurd hss2 hne
        | cons y ys =>
          rw [hss2] at hm
          have hy0 : 0 ≤ y := hnn y (by rw [hss2]; exact List.mem_cons_self _ _)
          have hq0 : maxQ (y :: ys) = 0 := hm
          have hy1 : y ≤ maxQ (y :: ys) := mem_le_foldl_max _ 0 y (List.mem_cons_self _ _)
          have hy : y = 0 := le_antisymm (hq0 ▸ hy1) hy0
          rw [hq0, ← hy]
          exact List.mem_cons_self _ _
      · exact hm

end FileUpload

namespace FileUpload

/-- Concrete measurement trace for the C9 witness: baseline at t=1000 ms with 0
bytes, then 3000 bytes at t=2000 (sample 3000 B/s), 5000 bytes at t=2500 (gap
below 1 s, no sample), 9000 bytes at t=3500 (sample 4000 B/s). -/
def qTrace : List (ℚ × ℚ) := [(0, 1000), (3000, 2000), (5000, 2500), (9000, 3500)]

/-- Witness for C9 on the concrete trace `qTrace`. -/
theorem c9_speed_tracker_witness : speedTrackerSpec qTrace :=
  c9_speed_tracker qTrace
    (List.Chain.cons ⟨by norm_num, by norm_num⟩
      (List.Chain.cons ⟨by norm_num, by norm_num⟩
        (List.Chain.cons ⟨by norm_num, by norm_num⟩
          (List.Chain.cons ⟨by norm_num, by norm_num⟩ List.Chain.nil))))
    (by
      intro e he
      simp only [qTrace, List.mem_cons, List.not_mem_nil, or_false] at he
      rcases he with rfl | rfl | rfl | rfl <;> norm_num)

end FileUpload

namespace S3Upload

/-- Observable state of one S3 upload task during transfer, as far as C3/C7
concern it: the chunk list, the `executingChunks` index set
(`part_001:127`), and the task-level `isPaused` flag, together with two
observations of the running XHRs that are not program variables but facts of
the execution: `inflight` is the multiset of chunk indices with a chunk
transporter (an XHR that has been sent and has not yet settled), and
`completions` records every time some transporter for a chunk completed
successfully (marking the chunk uploaded). -/
structure TaskState where
  chunks : List S3Chunk
  executing : List Nat
  inflight : List Nat
  completions : List Nat
  isPaused : Bool
deriving DecidableEq, Repr

/-- Events of a task execution:

* `admit i` — a scheduling pass reaches chunk `i`: the pass admits only chunks
  that are not uploaded and not in `executingChunks` when the pass builds its
  pending list (`part_001:605`), and the admission is skipped while paused
  (`part_001:611,647`); `uploadSingleChunk` then adds `i` to `executingChunks`
  (line 614) and `uploadChunk` synchronously attaches a fresh
  `AbortController`, sets `progress := 1` and sends the XHR (lines 497-580) —
  one more transporter for chunk `i` is in flight.
* `progressEvent i loaded total` — a running XHR for chunk `i` reports
  `loaded` of `total` bytes sent; unless the chunk's abort signal fired, the
  handler stores `Math.round((loaded/total)*100)` in `chunk.progress`
  (lines 528-536).
* `pause` — `pauseUpload` (lines 799-816): set `isPaused := true`, and for
  every chunk with an abort controller that is not uploaded AND HAS
  `progress > 0`, fire its abort signal (terminating that chunk's transporter)
  and reset `progress := 0`.  A transporter whose chunk shows `progress = 0`
  is NOT aborted.  `executingChunks` is not touched.
* `resume` — `resumeUpload` (lines 819-837, before it restarts the
  scheduler): set `isPaused := false`, CLEAR `executingChunks` (line 829), and
  reset every non-uploaded chunk with `0 < progress < 100` to `progress := 0`,
  dropping its controller (lines 832-837).
* `completeOk i` — a running transporter for chunk `i` loads successfully:
  the chunk is marked `uploaded := true, progress := 100` (lines 545-549), the
  transporter leaves flight, and `uploadSingleChunk`'s `finally` removes `i`
  from `executingChunks` (line 642). -/
inductive TEvent where
  | spawn (i : Nat)
  | progressEvent (i loaded total : Nat)
  | pause
  | resume
  | completeOk (i : Nat)
deriving DecidableEq, Repr

def findChunk (st : TaskState) (i : Nat) : Option S3Chunk :=
  st.chunks.find? (fun c => c.index == i)

def updChunk (st : TaskState) (i : Nat) (f : S3Chunk → S3Chunk) : List S3Chunk :=
  st.chunks.map (fun c => if c.index = i then f c else c)

/-- One step of the task transition system; `none` when the event's guard does
not hold in the given state.  The `admit` guard is the pass-start filter of
`part_001:605` plus the pause checks — it is at least as restrictive as the
source (a stale pass may in reality admit chunks against an outdated filter),
so every trace of this system is a possible execution. -/
def tstep (st : TaskState) : TEvent → Option TaskState
  | TEvent.spawn i =>
    match findChunk st i with
    | none => none
    | some c =>
      if st.isPaused ∨ c.uploaded = true ∨ st.executing.contains i then none
      else
        some { st with
          chunks := updChunk st i (fun c2 =>
            { c2 with hasController := true, signalAborted := false, progress := 1 })
          executing := i :: st.executing
          inflight := i :: st.inflight }
  | TEvent.progressEvent i loaded total =>
    match findChunk st i with
    | none => none
    | some c =>
      if st.inflight.contains i ∧ c.signalAborted = false ∧ 0 < total ∧ loaded ≤ total then
        some { st with
          chunks := updChunk st i (fun c2 =>
            { c2 with progress := FileUpload.jsRoundPct loaded total }) }
      else none
  | TEvent.pause =>
    some { st with
      isPaused := true
      chunks := st.chunks.map (fun c =>
        if c.hasController && !c.uploaded && decide (0 < c.progress) then
          { c with signalAborted := true, progress := 0 }
        else c)
      inflight := st.inflight.filter (fun i =>
        !((st.chunks.filter (fun c =>
            c.hasController && !c.uploaded && decide (0 < c.progress))).map
              (fun c => c.index)).contains i) }
  | TEvent.resume =>
    if st.isPaused then
      some { st with
        isPaused := false
        executing := []
        chunks := st.chunks.map (fun c =>
          if !c.uploaded && decide (0 < c.progress) && decide (c.progress < 100) then
            { c with progress := 0, hasController := false }
          else c) }
    else none
  | TEvent.completeOk i =>
    match findChunk st i with
    | none => none
    | some c =>
      if st.inflight.contains i ∧ c.signalAborted = false then
        some { st with
          chunks := updChunk st i (fun c2 => { c2 with uploaded := true, progress := 100 })
          inflight := st.inflight.erase i
          executing := st.executing.erase i
          completions := st.completions ++ [i] }
      else none

def runEvents : TaskState → List TEvent → Option TaskState
  | st, [] => some st
  | st, e :: es =>
    match tstep st e with
    | none => none
    | some st2 => runEvents st2 es

/-- Content-hash oracle for the concrete traces. -/
def traceHash : Nat → String := fun i => toString i

/-- Initial task state of the concrete traces: a single-chunk plan (5 MiB file
at the default 5 MiB chunk size), nothing executing, nothing in flight, not
paused. -/
def initTask : TaskState :=
  { chunks := createChunks 5242880 5242880 traceHash
    executing := []
    inflight := []
    completions := []
    isPaused := false }

/-- The interleaving that defeats the at-most-one-transporter guarantee: the
scheduler admits chunk 0 (XHR #1 in flight); the XHR reports 16384 of 5242880
bytes, so `Math.round` stores progress 0; the user pauses — the abort loop
skips the chunk because its progress is 0, so XHR #1 keeps running; the user
resumes — `executingChunks` is cleared; the restarted scheduling pass admits
chunk 0 again (not uploaded, not executing), starting XHR #2 while XHR #1 is
still in flight. -/
def pauseResumeEvents : List TEvent :=
  [TEvent.spawn 0, TEvent.progressEvent 0 16384 5242880, TEvent.pause,
   TEvent.resume, TEvent.spawn 0]

/-- Continuation of `pauseResumeEvents`: both running XHRs eventually load
successfully, so chunk 0 is uploaded twice to completion. -/
def doubleCompleteEvents : List TEvent :=
  pauseResumeEvents ++ [TEvent.completeOk 0, TEvent.completeOk 0]

def inflightCountAt (o : Option TaskState) (i : Nat) : Nat :=
  match o with
  | some st => st.inflight.count i
  | none => 0

def completionsCountAt (o : Option TaskState) (i : Nat) : Nat :=
  match o with
  | some st => st.completions.count i
  | none => 0

def pausedFlag (o : Option TaskState) : Bool :=
  match o with
  | some st => st.isPaused
  | none => false

end S3Upload

namespace S3Upload

/-- C3, failing input: after the legal interleaving `pauseResumeEvents`
(admit chunk 0; progress event rounding to 0; pause; resume; admit chunk 0
again), chunk 0 has TWO transporters in flight at once.  The in-flight
registry does not prevent this: `pauseUpload` aborts only chunks with
`progress > 0`, so the first transporter survives the pause at progress 0, and
`resumeUpload` clears `executingChunks` before restarting the scheduler, which
therefore admits the chunk a second time.  This refutes the claimed invariant
of at most one in-flight transporter per chunk across overlapping scheduling
passes. -/
theorem c3_double_inflight_transporter :
    inflightCountAt (runEvents initTask pauseResumeEvents) 0 = 2 := by
  decide

/-- C7, failing input: pausing while chunk 0's transporter has reported 16384
of 5242880 bytes (progress `Math.round` = 0) leaves that in-flight transporter
uncancelled (the task is paused yet one transporter is still in flight), and
after resume the rescheduled second transporter and the surviving first one
both complete, so chunk 0 is uploaded twice to completion — refuting both
"all in-flight transporters are cancelled" and "no chunk is uploaded twice to
completion". -/
theorem c7_pause_leaves_transporter_running :
    pausedFlag (runEvents initTask (List.take 3 pauseResumeEvents)) = true
    ∧ inflightCountAt (runEvents initTask (List.take 3 pauseResumeEvents)) 0 = 1
    ∧ completionsCountAt (runEvents initTask doubleCompleteEvents) 0 = 2 := by
  refine ⟨?_, ?_, ?_⟩ <;> decide

end S3Upload

namespace S3Upload

structure FileRef where
  name : String
  size : Nat
deriving DecidableEq, Repr

structure UploadProgress where
  loaded : Nat
  total : Nat
  percentage : Nat
deriving DecidableEq, Repr

structure ResumeInfo where
  progress : Nat
  totalChunks : Nat
  uploadedCount : Nat
deriving DecidableEq, Repr

/-- `S3CheckUploadResponse` (`part_001:66-73`).  It has no field for a
satisfied-chunk identifier list; resume information arrives only as
`session` with its `uploadedParts` count. -/
structure S3CheckResp where
  success : Bool
  fileExists : Bool
  isComplete : Bool
  message : String
  url : Option String
  session : Option S3Session
deriving DecidableEq, Repr

/-- Reactive state of `useS3Upload` as far as `startUpload` concerns it
(`part_001:86-127`); the hash-progress record and `isCalculatingHash` are not
modelled (untouched by `startUpload`). -/
structure S3State where
  isUploading : Bool
  isPaused : Bool
  isCompleted : Bool
  isCheckingUpload : Bool
  isInitializing : Bool
  isSecondTransfer : Bool
  currentFile : Option FileRef
  fileHash : String
  chunks : List S3Chunk
  uploadSession : Option S3Session
  resumeInfo : Option ResumeInfo
  uploadProgress : UploadProgress
  stats : FileUpload.NetworkStats
  speed : FileUpload.SpeedInfo
deriving DecidableEq, Repr

/-- Computed property `uploadedSize` (`part_001:130,136`): the byte sum of the
uploaded chunks' spans. -/
def uploadedSize (chunks : List S3Chunk) : Nat :=
  ((chunks.filter (fun c => c.uploaded)).map (fun c => c.«end» - c.start)).sum

/-- `updateTotalProgress` (`part_001:591-600`). -/
def updateTotalProgress (fileSize : Nat) (st : S3State) : S3State :=
  { st with uploadProgress :=
      { loaded := uploadedSize st.chunks
        total := fileSize
        percentage :=
          if 0 < fileSize then FileUpload.jsRoundPct (uploadedSize st.chunks) fileSize
          else 0 } }

/-- JavaScript `checkResult.url || null` (`part_001:762`) — the empty string
is falsy and yields `null`. -/
def urlOrNull (u : Option String) : Option String :=
  match u with
  | none => none
  | some s => if s = "" then none else some s

/-- Backend operations a `startUpload` run can perform, in order. -/
inductive S3Op where
  | check
  | initUpload
  | chunk (index : Nat)
  | complete
  | cancel
deriving DecidableEq, Repr

/-- Environment of one `startUpload` run: the check response, the result of an
`initialize` call (should one be made), the per-chunk transport verdict, and
the result of a `complete` call. -/
structure S3Env where
  checkResp : S3CheckResp
  initResult : Except FileUpload.UploadErr S3Session
  chunkOk : Nat → Bool
  completeResult : Except FileUpload.UploadErr (Option String)

/-- State effect of `checkUploadStatus` (`part_001:321-374`) once the check
response has arrived: on `fileExists && isComplete` it sets `isSecondTransfer`
and `isCompleted` (instant transfer) and returns at once, touching nothing
else; otherwise, if the response carries a session, it stores it, derives
`resumeInfo` from it, builds the chunk list with the count-based marking and
updates the total progress; otherwise it leaves the state unchanged. -/
def checkUploadStatusCore (resp : S3CheckResp) (fileSize chunkSize : Nat)
    (hashOf : Nat → String) (st : S3State) : S3State :=
  if resp.fileExists && resp.isComplete then
    { st with isSecondTransfer := true, isCompleted := true }
  else
    match resp.session with
    | some s =>
      updateTotalProgress fileSize
        { st with
          uploadSession := some s
          resumeInfo := some
            { progress := s.progress.getD 0
              totalChunks := s.totalChunks
              uploadedCount := s.uploadedParts.getD 0 }
          chunks := createChunksAndMarkUploaded fileSize chunkSize hashOf s }
    | none => st

/-- The transfer pass of `startUpload`, modelled by its effect on the chunk
list: pending (not uploaded) chunks are attempted in order; a chunk with a
positive transport verdict is marked uploaded at progress 100; the first
negative verdict aborts the pass with the network error, per the transport
semantics of `uploadChunk`/`uploadSingleChunk` above (a transport failure
rejects and fails the pass, with no retry).  Completion order does not affect
the final chunk states or whether the pass fails, so this sequential order
stands in for the concurrent pool of `uploadChunksConcurrently`
(`part_001:603-690`). -/
def uploadPass (chunkOk : Nat → Bool) :
    List S3Chunk → List S3Chunk × List S3Op × Option FileUpload.UploadErr
  | [] => ([], [], none)
  | c :: rest =>
    if c.uploaded then
      let r := uploadPass chunkOk rest
      (c :: r.1, r.2.1, r.2.2)
    else if chunkOk c.index then
      let r := uploadPass chunkOk rest
      ({ c with uploaded := true, progress := 100, hasController := true } :: r.1,
       S3Op.chunk c.index :: r.2.1, r.2.2)
    else
      (c :: rest, [S3Op.chunk c.index], some FileUpload.UploadErr.network)

/-- `completeUpload` (`part_001:693-732`) as invoked from `startUpload`:
requires a session and a non-paused task, posts `complete`; on success the
task completes with the returned URL, on failure the error propagates (the
surrounding catch resets `isUploading`). -/
def completeStep (env : S3Env) (st : S3State) (ops : List S3Op) :
    Except FileUpload.UploadErr (Option String) × S3State × List S3Op :=
  match st.uploadSession with
  | none =>
    (Except.error FileUpload.UploadErr.noSession, { st with isUploading := false }, ops)
  | some _ =>
    if st.isPaused then
      (Except.error FileUpload.UploadErr.paused, { st with isUploading := false }, ops)
    else
      match env.completeResult with
      | Except.ok u =>
        (Except.ok u, { st with isCompleted := true, isUploading := false },
         ops ++ [S3Op.complete])
      | Except.error e =>
        (Except.error e, { st with isUploading := false }, ops ++ [S3Op.complete])

/-- Tail of `startUpload` after session setup (`part_001:771-790`): update the
total progress; if every chunk is already uploaded, complete at once;
otherwise run the transfer pass (the chunk success handlers keep the total
progress current) and then complete; a failed pass propagates its error, the
catch resetting `isUploading`. -/
def startUploadTransfer (env : S3Env) (fileSize : Nat) (st : S3State) (ops : List S3Op) :
    Except FileUpload.UploadErr (Option String) × S3State × List S3Op :=
  let st1 := updateTotalProgress fileSize st
  if (st1.chunks.filter (fun c => c.uploaded)).length = st1.chunks.length then
    completeStep env st1 ops
  else
    let r := uploadPass env.chunkOk st1.chunks
    match r.2.2 with
    | some e =>
      (Except.error e, { st1 with chunks := r.1, isUploading := false }, ops ++ r.2.1)
    | none =>
      completeStep env (updateTotalProgress fileSize { st1 with chunks := r.1 })
        (ops ++ r.2.1)

/-- `startUpload` of the S3 hook (`part_001:735-796`): the guards (file and
hash must be present), the reset of network statistics and flags, the `check`
call, the instant-transfer early return, session initialization plus fresh
chunk creation when no session exists, and the transfer/complete tail.
Returns (result, final state, ordered backend operations performed). -/
def startUpload (chunkSize : Nat) (hashOf : Nat → String) (env : S3Env) (st : S3State) :
    Except FileUpload.UploadErr (Option String) × S3State × List S3Op :=
  match st.currentFile with
  | none => (Except.error FileUpload.UploadErr.noFile, st, [])
  | some f =>
    if st.fileHash = "" then (Except.error FileUpload.UploadErr.noHash, st, [])
    else
      let st1 := { st with
        stats := { FileUpload.resetStats.1 with totalBytes := (f.size : ℚ) }
        speed := FileUpload.resetStats.2
        isUploading := true
        isCompleted := false
        isPaused := false
        isSecondTransfer := false }
      let st2 := checkUploadStatusCore env.checkResp f.size chunkSize hashOf st1
      if env.checkResp.fileExists && env.checkResp.isComplete then
        (Except.ok (urlOrNull env.checkResp.url),
         { st2 with isCompleted := true, isUploading := false, isSecondTransfer := true },
         [S3Op.check])
      else
        match st2.uploadSession with
        | none =>
          match env.initResult with
          | Except.error e =>
            (Except.error e, { st2 with isUploading := false },
             [S3Op.check, S3Op.initUpload])
          | Except.ok s =>
            startUploadTransfer env f.size
              { st2 with uploadSession := some s
                         chunks := createChunks f.size chunkSize hashOf }
              [S3Op.check, S3Op.initUpload]
        | some _ => startUploadTransfer env f.size st2 [S3Op.check]

end S3Upload

namespace S3Upload

/-- C6: whenever the check response reports the object as fully existing and
complete (`fileExists && isComplete`), `startUpload` transitions the task
directly to Completed (instant transfer): `isCompleted` is set, `isUploading`
cleared, `isSecondTransfer` set, the only backend operation performed is the
`check` itself (no `initialize`, no chunk upload, no `complete`), no session
is created, the chunk list is untouched, and the check URL (or null) is
returned. -/
theorem c6_instant_transfer (chunkSize : Nat) (hashOf : Nat → String) (env : S3Env)
    (st : S3State) (f : FileRef)
    (hf : st.currentFile = some f)
    (hh : st.fileHash ≠ "")
    (hsess : st.uploadSession = none)
    (hex : env.checkResp.fileExists = true)
    (hco : env.checkResp.isComplete = true) :
    (startUpload chunkSize hashOf env st).2.2 = [S3Op.check]
    ∧ (startUpload chunkSize hashOf env st).2.1.isCompleted = true
    ∧ (startUpload chunkSize hashOf env st).2.1.isUploading = false
    ∧ (startUpload chunkSize hashOf env st).2.1.isSecondTransfer = true
    ∧ (startUpload chunkSize hashOf env st).2.1.uploadSession = none
    ∧ (startUpload chunkSize hashOf env st).2.1.chunks = st.chunks
    ∧ (startUpload chunkSize hashOf env st).1 = Except.ok (urlOrNull env.checkResp.url) := by
  rw [startUpload, hf]
  simp [checkUploadStatusCore, hex, hco, hh, hsess]

/-- C10: when `startUpload` completes through the instant-transfer branch, it
returns the check URL (or null) with `isCompleted` and `isSecondTransfer`
true, while the chunk list stays empty and `uploadProgress.loaded` /
`uploadProgress.percentage` keep their reset value 0 — so instant-transfer
completion does not establish `uploadedSize = fileSize` at the public
interface (`uploadedSize` stays 0 while the file size is positive). -/
theorem c10_instant_transfer_frame (chunkSize : Nat) (hashOf : Nat → String) (env : S3Env)
    (st : S3State) (f : FileRef)
    (hf : st.currentFile = some f)
    (hh : st.fileHash ≠ "")
    (hch : st.chunks = [])
    (hl : st.uploadProgress.loaded = 0)
    (hp : st.uploadProgress.percentage = 0)
    (hfs : 0 < f.size)
    (hex : env.checkResp.fileExists = true)
    (hco : env.checkResp.isComplete = true) :
    (startUpload chunkSize hashOf env st).1 = Except.ok (urlOrNull env.checkResp.url)
    ∧ (startUpload chunkSize hashOf env st).2.1.isCompleted = true
    ∧ (startUpload chunkSize hashOf env st).2.1.isSecondTransfer = true
    ∧ (startUpload chunkSize hashOf env st).2.1.chunks = []
    ∧ (startUpload chunkSize hashOf env st).2.1.uploadProgress.loaded = 0
    ∧ (startUpload chunkSize hashOf env st).2.1.uploadProgress.percentage = 0
    ∧ uploadedSize (startUpload chunkSize hashOf env st).2.1.chunks = 0
    ∧ uploadedSize (startUpload chunkSize hashOf env st).2.1.chunks ≠ f.size := by
  rw [startUpload, hf]
  simp [checkUploadStatusCore, hex, hco, hh, hch, hl, hp, uploadedSize]
  omega

end S3Upload

namespace S3Upload

/-- Concrete file for the instant-transfer witnesses: 23 MiB. -/
def testFile : FileRef := { name := ("big.bin"), size := 24117248 }

/-- Check response reporting the object fully exists and is complete. -/
def testCheckResp : S3CheckResp :=
  { success := true
    fileExists := true
    isComplete := true
    message := ("exists")
    url := some ("http://localhost:3000/files/big.bin")
    session := none }

/-- Environment for the instant-transfer witnesses. -/
def testEnv : S3Env :=
  { checkResp := testCheckResp
    initResult := Except.error FileUpload.UploadErr.server
    chunkOk := fun _ => true
    completeResult := Except.ok none }

/-- Fresh task state with a selected file and a computed hash. -/
def freshState : S3State :=
  { isUploading := false
    isPaused := false
    isCompleted := false
    isCheckingUpload := false
    isInitializing := false
    isSecondTransfer := false
    currentFile := some testFile
    fileHash := ("abc123")
    chunks := []
    uploadSession := none
    resumeInfo := none
    uploadProgress := { loaded := 0, total := 0, percentage := 0 }
    stats := FileUpload.resetStats.1
    speed := FileUpload.resetStats.2 }

/-- Witness for C6 on the concrete instant-transfer run. -/
theorem c6_instant_transfer_witness :
    (startUpload 5242880 traceHash testEnv freshState).2.2 = [S3Op.check]
    ∧ (startUpload 5242880 traceHash testEnv freshState).2.1.isCompleted = true
    ∧ (startUpload 5242880 traceHash testEnv freshState).2.1.isUploading = false
    ∧ (startUpload 5242880 traceHash testEnv freshState).2.1.isSecondTransfer = true
    ∧ (startUpload 5242880 traceHash testEnv freshState).2.1.uploadSession = none
    ∧ (startUpload 5242880 traceHash testEnv freshState).2.1.chunks = freshState.chunks
    ∧ (startUpload 5242880 traceHash testEnv freshState).1
        = Except.ok (urlOrNull testEnv.checkResp.url) :=
  c6_instant_transfer 5242880 traceHash testEnv freshState testFile rfl (by decide) rfl rfl rfl

/-- Witness for C10 on the concrete instant-transfer run. -/
theorem c10_instant_transfer_frame_witness :
    (startUpload 5242880 traceHash testEnv freshState).1
        = Except.ok (urlOrNull testEnv.checkResp.url)
    ∧ (startUpload 5242880 traceHash testEnv freshState).2.1.isCompleted = true
    ∧ (startUpload 5242880 traceHash testEnv freshState).2.1.isSecondTransfer = true
    ∧ (startUpload 5242880 traceHash testEnv freshState).2.1.chunks = []
    ∧ (startUpload 5242880 traceHash testEnv freshState).2.1.uploadProgress.loaded = 0
    ∧ (startUpload 5242880 traceHash testEnv freshState).2.1.uploadProgress.percentage = 0
    ∧ uploadedSize (startUpload 5242880 traceHash testEnv freshState).2.1.chunks = 0
    ∧ uploadedSize (startUpload 5242880 traceHash testEnv freshState).2.1.chunks
        ≠ testFile.size :=
  c10_instant_transfer_frame 5242880 traceHash testEnv freshState testFile rfl (by decide)
    rfl rfl rfl (by decide) rfl rfl

end S3Upload
